import Mathlib

/-!
Verification development for the stripy planar-triangulation wrapper
(file src/stripy/_trimesh.py).

The Python file is a thin wrapper around the compiled TRIPACK/SRFPACK
routines.  We shallowly embed the wrapper logic: every external compiled
routine (trmesh, trlist2, trlist, nearnd, getnp, gradg, gradl, intrc0,
intrc1, smsurf) is a parameter of the embedding — an arbitrary function of
the arguments the wrapper passes — so the theorems quantify over every
possible behaviour of the compiled library.  Python exceptions are the
explicit error side of Except; numeric values are rationals.
-/

namespace Stripy

/-- A raised Python exception, as the wrapper can produce it: ValueError
raised by the validation code, RuntimeWarning raised (as an exception) by
smoothing, NameError raised when a free variable fails to resolve. -/
inductive PyExc where
  | valueError (msg : String)
  | runtimeWarning (msg : String)
  | nameError (nm : String)
deriving DecidableEq, Repr

/-- A numpy array as the wrapper observes it: a shape together with the
flat rational data.  Only the shape and the flat values matter to the
wrapper code being modelled. -/
structure PyArray where
  shape : List Nat
  data : List ℚ
deriving DecidableEq, Repr

/-- numpy ndarray.size: the product of the dimensions. -/
def PyArray.size (a : PyArray) : Nat := a.shape.prod

/-- The state stored on a Triangulation object by a successful __init__:
x, y, npoints, the adjacency arrays lst, lptr, lend (1-based, as
documented), and the zero-based simplices array. -/
structure Tri where
  x : PyArray
  y : PyArray
  npoints : Nat
  lst : List Int
  lptr : List Int
  lend : List Int
  simplices : List (List Int)
deriving DecidableEq, Repr

/-- The conversion performed by __init__ line 96, `ltri.T[:nt] - 1`:
keep the first nt rows of the transposed triangle list and subtract one
from every entry.  `ltriT` is ltri.T given row-major. -/
def toSimplices (ltriT : List (List Int)) (nt : Nat) : List (List Int) :=
  (ltriT.take nt).map (fun row => row.map (fun e => e - 1))

/-- Triangulation.__init__ (lines 65-96): validate the two coordinate
arrays, call trmesh, fail on a nonzero error flag, store the adjacency
arrays, call trlist2, fail on a nonzero error flag, and store the
zero-based triangle list.  The compiled routines trmesh and trlist2 are
parameters; trmesh returns (lst, lptr, lend, ierr) and trlist2 returns
(nt, ltri.T, ierr). -/
def Triangulation.init
    (trmesh : PyArray → PyArray → List Int × List Int × List Int × Int)
    (trlist2 : List Int → List Int → List Int → Nat × List (List Int) × Int)
    (x y : PyArray) : Except PyExc Tri :=
  if x.shape.length ≠ 1 ∨ y.shape.length ≠ 1 then
    .error (.valueError "x and y must be 1D")
  else if x.size ≠ y.size then
    .error (.valueError "x and y must have same length")
  else
    let r := trmesh x y
    if r.2.2.2 ≠ 0 then .error (.valueError "ierr in trmesh")
    else
      let r2 := trlist2 r.1 r.2.1 r.2.2.1
      if r2.2.2 ≠ 0 then .error (.valueError "ierr in trlist2")
      else .ok ⟨x, y, x.size, r.1, r.2.1, r.2.2.1, toSimplices r2.2.1 r2.1⟩

/-- Triangulation.neighbour_simplices (lines 99-108): call trlist with
nrow=6, fail on a nonzero error flag, and return `ltri.T[:nt,3:] - 1`
(the neighbour-triangle columns, converted to zero-based with -1 as the
hull sentinel).  trlist returns (nt, ltri.T, lct, ierr). -/
def neighbour_simplices
    (trlist : List Int → List Int → List Int → Nat × List (List Int) × List Int × Int)
    (t : Tri) : Except PyExc (List (List Int)) :=
  let r := trlist t.lst t.lptr t.lend
  if r.2.2.2 ≠ 0 then .error (.valueError "ierr in trlist")
  else .ok (((r.2.1.take r.1).map (fun row => row.drop 3)).map
    (fun row => row.map (fun e => e - 1)))

/-- Triangulation.neighbour_and_arc_simplices (lines 111-121): call
trlist with nrow=9, fail on a nonzero error flag, convert
`ltri.T[:nt] - 1`, and return columns 3:6 and 6:9. -/
def neighbour_and_arc_simplices
    (trlist : List Int → List Int → List Int → Nat × List (List Int) × List Int × Int)
    (t : Tri) : Except PyExc (List (List Int) × List (List Int)) :=
  let r := trlist t.lst t.lptr t.lend
  if r.2.2.2 ≠ 0 then .error (.valueError "ierr in trlist")
  else
    let rows := toSimplices r.2.1 r.1
    .ok (rows.map (fun q => (q.drop 3).take 3), rows.map (fun q => q.drop 6))

/-- numpy argmin over a rational list: index of the first minimal
element (0 on an empty list, as a harmless default). -/
def argmin (l : List ℚ) : Nat :=
  (l.foldl
    (fun acc v =>
      match acc with
      | (best, bestIdx, idx) =>
        if v < best then (v, idx, idx + 1) else (best, bestIdx, idx + 1))
    ((l.headD 0, 0, 0) : ℚ × Nat × Nat)).2.1

/-- Triangulation.nearest_neighbour (lines 124-139): start the search at
1 + the argmin of (x - xi)^2, call nearnd, and return the index
converted to zero-based together with the squared distance.  nearnd is a
parameter taking (xi, yi, startIndex). -/
def nearest_neighbour (nearnd : ℚ → ℚ → Nat → Int × ℚ)
    (t : Tri) (xi yi : ℚ) : Int × ℚ :=
  let i := argmin (t.x.data.map (fun v => (v - xi) ^ 2)) + 1
  let r := nearnd xi yi i
  (r.1 - 1, r.2)

/-- The names bound at module scope in src/stripy/_trimesh.py (imports,
__version__, the error-code table and the class). -/
def moduleNames : List String :=
  ["_tripack", "_srfpack", "np", "__version__", "_ier_codes", "Triangulation"]

/-- The local names of Triangulation.nearest_neighbours: its parameters
and the variables it assigns. -/
def nnLocalNames : List String :=
  ["self", "indices", "distances", "copy", "ind", "dist"]

/-- Whether a bare name used inside nearest_neighbours resolves (Python
LEGB rule restricted to this module: function locals, then module
globals; none of the names in question is a builtin). -/
def nnResolves (nm : String) : Bool :=
  nnLocalNames.contains nm || moduleNames.contains nm

/-- The body of Triangulation.nearest_neighbours (lines 170-179),
parametrised by whether the free names x, y, lst, lptr, lend of line 177
resolve.  getnp is the compiled routine, taking the 1-based index array
and the distance array and returning their updated contents.  The result
is (state of the caller-visible arrays indices and distances after the
call, returned value or raised exception): with copy=False the names
ind and dist alias the caller arrays, so the in-place `ind += 1`,
the getnp update and the `ind -= 1` are all visible through them and the
return statement returns those same arrays; with copy=True all updates
happen on the copies and line 179 returns the untouched originals. -/
def nn_body (resolveFree : Bool)
    (getnp : List Int → List ℚ → List Int × List ℚ)
    (indices : List Int) (distances : List ℚ) (copy : Bool) :
    (List Int × List ℚ) × Except PyExc (List Int × List ℚ) :=
  let ind0 := indices.map (fun e => e + 1)
  if resolveFree then
    let r := getnp ind0 distances
    let ind2 := r.1.map (fun e => e - 1)
    if copy then ((indices, distances), .ok (indices, distances))
    else ((ind2, r.2), .ok (ind2, r.2))
  else
    (if copy then (indices, distances) else (ind0, distances),
     .error (.nameError "x"))

/-- Triangulation.nearest_neighbours as written in the source: its
line 177 references the bare names x, y, lst, lptr, lend, which resolve
neither among the function locals nor at module scope. -/
def nearest_neighbours (getnp : List Int → List ℚ → List Int × List ℚ)
    (indices : List Int) (distances : List ℚ) (copy : Bool) :
    (List Int × List ℚ) × Except PyExc (List Int × List ℚ) :=
  nn_body (nnResolves "x") getnp indices distances copy

/-- The while loop of Triangulation.gradient in guarantee_convergence
mode (lines 229-234): ierr starts at 1, each pass calls gradg once, and
the loop runs again exactly when the returned flag is 1.  The compiled
gradg is modelled by the sequence g of flags its successive calls return
(the gradient array it updates in place persists between calls).  The
loop has no built-in bound, so it is embedded with explicit fuel: k is
the index of the next call, and the result is the final flag when the
loop exits within the given fuel, none otherwise. -/
def gradgLoopFuel (g : Nat → Int) : Nat → Nat → Option Int
  | _, 0 => none
  | k, fuel + 1 =>
    let r := g k
    if r = 1 then gradgLoopFuel g (k + 1) fuel else some r

/-- Triangulation.gradient (lines 182-239): reject f when its size
differs from the point count, then run gradg once (best-effort mode,
the `break`) or until the flag differs from 1 (guarantee mode), and
finally raise ValueError on a negative flag and return the gradient
arrays otherwise.  The returned arrays are gradg state, abstracted to
Unit here; the value is none when the guarantee-mode loop never exits
within the fuel. -/
def gradient_wrapper (npoints fsize : Nat) (g : Nat → Int)
    (guarantee : Bool) (fuel : Nat) : Option (Except PyExc Unit) :=
  if fsize ≠ npoints then
    some (.error (.valueError "f should be the same size as mesh"))
  else if guarantee then
    match gradgLoopFuel g 0 fuel with
    | none => none
    | some r =>
      some (if r < 0 then .error (.valueError "ierr in gradg") else .ok ())
  else
    let r := g 0
    some (if r < 0 then .error (.valueError "ierr in gradg") else .ok ())

/-- Triangulation.gradient_local (lines 242-262): reject f when its
size differs from the point count, then call gradl at the 1-based index
and return the two gradient components. -/
def gradient_local (npoints fsize : Nat) (gradl : Int → ℚ × ℚ × Int)
    (index : Int) : Except PyExc (ℚ × ℚ) :=
  if fsize ≠ npoints then
    .error (.valueError "f should be the same size as mesh")
  else
    let r := gradl (index + 1)
    .ok (r.1, r.2.1)

/-- The xi, yi arguments of the interpolation entry points: either two
scalars or two arrays (np.array(xi).size decides which branch runs). -/
inductive XYIn where
  | one (x y : ℚ)
  | many (xs ys : List ℚ)
deriving DecidableEq, Repr

/-- Result of interpolate_linear: a scalar for scalar input, an array
for array input. -/
inductive InterpOut where
  | scalarOut (z : ℚ)
  | arrayOut (zs : List ℚ)
deriving DecidableEq, Repr

/-- Triangulation.interpolate_linear (lines 266-307): reject zdata when
its size differs from the point count; for array input of size > 1,
reject mismatched lengths and fill the output one query point at a time
with intrc0 called at start index ist = 1 (ist is assigned once before
the loop and the updated value intrc0 returns is discarded into t, so
every call sees ist = 1); otherwise evaluate intrc0 once.  intrc0 is the
compiled routine with x, y, zdata, lst, lptr, lend already applied,
taking (xi, yi, ist); a size-1 array reaches the scalar branch and is
passed through as its single element. -/
def interpolate_linear (npoints : Nat) (intrc0 : ℚ → ℚ → Int → ℚ × Int)
    (input : XYIn) (zsize : Nat) : Except PyExc InterpOut :=
  if zsize ≠ npoints then
    .error (.valueError "zdata should be same size as mesh")
  else
    match input with
    | .one x y => .ok (.scalarOut (intrc0 x y 1).1)
    | .many xs ys =>
      if xs.length > 1 then
        if xs.length ≠ ys.length then
          .error (.valueError "xi and yi must have same length")
        else
          .ok (.arrayOut ((xs.zip ys).map (fun p => (intrc0 p.1 p.2 1).1)))
      else .ok (.scalarOut (intrc0 (xs.headD 0) (ys.headD 0) 1).1)

/-- Result of interpolate_cubic: value only, or value plus the pair of
first partials, scalar or array according to the input. -/
inductive CubicOut where
  | plainS (z : ℚ)
  | plainA (zs : List ℚ)
  | derivS (z dzx dzy : ℚ)
  | derivA (zs dzxs dzys : List ℚ)
deriving DecidableEq, Repr

/-- Triangulation.interpolate_cubic (lines 310-360): same validation and
dispatch as interpolate_linear, with intrc1 returning (zi, dzx, dzy,
ist); each array element is filled by an independent intrc1 call at
ist = 1, and the derivatives flag selects whether the partials are
returned alongside the values. -/
def interpolate_cubic (npoints : Nat)
    (intrc1 : ℚ → ℚ → Int → ℚ × ℚ × ℚ × Int)
    (input : XYIn) (zsize : Nat) (derivatives : Bool) :
    Except PyExc CubicOut :=
  if zsize ≠ npoints then
    .error (.valueError "zdata should be same size as mesh")
  else
    match input with
    | .one x y =>
      let r := intrc1 x y 1
      .ok (if derivatives then .derivS r.1 r.2.1 r.2.2.1 else .plainS r.1)
    | .many xs ys =>
      if xs.length > 1 then
        if xs.length ≠ ys.length then
          .error (.valueError "xi and yi must have same length")
        else
          let trip := (xs.zip ys).map (fun p =>
            let r := intrc1 p.1 p.2 1
            (r.1, r.2.1, r.2.2.1))
          .ok (if derivatives then
                .derivA (trip.map (fun q => q.1)) (trip.map (fun q => q.2.1))
                  (trip.map (fun q => q.2.2))
               else .plainA (trip.map (fun q => q.1)))
      else
        let r := intrc1 (xs.headD 0) (ys.headD 0) 1
        .ok (if derivatives then .derivS r.1 r.2.1 r.2.2.1 else .plainS r.1)

/-- Triangulation.smoothing (lines 363-404): reject f when its size
differs from the point count or from the size of w, then call smsurf;
a negative flag raises ValueError, the flag 1 (constraint not active)
executes `raise RuntimeWarning(...)` — which raises the warning as an
exception, so the values are not returned — and any other flag returns
(f_smooth, (d2f x, d2f y)).  smsurf is modelled by its returned flag and
payload. -/
def smoothing_wrapper (npoints fsize wsize : Nat)
    (smsurf : Int × (List ℚ × List ℚ × List ℚ)) :
    Except PyExc (List ℚ × List ℚ × List ℚ) :=
  if fsize ≠ npoints ∨ fsize ≠ wsize then
    .error (.valueError "f and w should be the same size as mesh")
  else if smsurf.1 < 0 then .error (.valueError "ierr in gradg")
  else if smsurf.1 = 1 then
    .error (.runtimeWarning
      "No errors were encountered but the constraint is not active")
  else .ok smsurf.2

/-!
State-threading views of the methods.  A Python method can mutate its
object by assigning to self attributes and can mutate an argument array
passed to a compiled routine with an in-out parameter.  None of the
method bodies in _trimesh.py assigns a self attribute, and the only
in-out arguments are caller arrays (the gradient array freshly created
by gradient, the ind/dist arrays of nearest_neighbours), never the
fields of the triangulation.  Each wrapper below pairs the result with
the triangulation state the method leaves behind. -/

/-- neighbour_simplices as a state transformer on the object. -/
def Tri.neighbourSimplicesM
    (trlist : List Int → List Int → List Int → Nat × List (List Int) × List Int × Int)
    (t : Tri) : Tri × Except PyExc (List (List Int)) :=
  (t, neighbour_simplices trlist t)

/-- neighbour_and_arc_simplices as a state transformer on the object. -/
def Tri.neighbourAndArcSimplicesM
    (trlist : List Int → List Int → List Int → Nat × List (List Int) × List Int × Int)
    (t : Tri) : Tri × Except PyExc (List (List Int) × List (List Int)) :=
  (t, neighbour_and_arc_simplices trlist t)

/-- nearest_neighbour as a state transformer on the object. -/
def Tri.nearestNeighbourM (nearnd : ℚ → ℚ → Nat → Int × ℚ)
    (t : Tri) (xi yi : ℚ) : Tri × (Int × ℚ) :=
  (t, nearest_neighbour nearnd t xi yi)

/-- nearest_neighbours as a state transformer on the object (the caller
arrays indices and distances may be mutated; the object is not). -/
def Tri.nearestNeighboursM (getnp : List Int → List ℚ → List Int × List ℚ)
    (t : Tri) (indices : List Int) (distances : List ℚ) (copy : Bool) :
    Tri × ((List Int × List ℚ) × Except PyExc (List Int × List ℚ)) :=
  (t, nearest_neighbours getnp indices distances copy)

/-- gradient as a state transformer on the object (the freshly created
gradient array is the only array gradg updates in place). -/
def Tri.gradientM (g : Nat → Int) (t : Tri) (fsize : Nat)
    (guarantee : Bool) (fuel : Nat) : Tri × Option (Except PyExc Unit) :=
  (t, gradient_wrapper t.npoints fsize g guarantee fuel)

/-- gradient_local as a state transformer on the object. -/
def Tri.gradientLocalM (gradl : Int → ℚ × ℚ × Int) (t : Tri)
    (fsize : Nat) (index : Int) : Tri × Except PyExc (ℚ × ℚ) :=
  (t, gradient_local t.npoints fsize gradl index)

/-- interpolate_linear as a state transformer on the object. -/
def Tri.interpolateLinearM (intrc0 : ℚ → ℚ → Int → ℚ × Int) (t : Tri)
    (input : XYIn) (zsize : Nat) : Tri × Except PyExc InterpOut :=
  (t, interpolate_linear t.npoints intrc0 input zsize)

/-- interpolate_cubic as a state transformer on the object. -/
def Tri.interpolateCubicM (intrc1 : ℚ → ℚ → Int → ℚ × ℚ × ℚ × Int)
    (t : Tri) (input : XYIn) (zsize : Nat) (derivatives : Bool) :
    Tri × Except PyExc CubicOut :=
  (t, interpolate_cubic t.npoints intrc1 input zsize derivatives)

/-- smoothing as a state transformer on the object. -/
def Tri.smoothingM (t : Tri) (fsize wsize : Nat)
    (smsurf : Int × (List ℚ × List ℚ × List ℚ)) :
    Tri × Except PyExc (List ℚ × List ℚ × List ℚ) :=
  (t, smoothing_wrapper t.npoints fsize wsize smsurf)

/-!
The global gradient estimator, modelled from the spec.

The compiled routine gradg called by Triangulation.gradient is not part
of the wrapped sources.  Modelled from the spec: section 4.4 describes
it as minimising Q(G), the sum over the triangulation arcs of the
linearised curvature of the Hermite interpolant (tension zero, a cubic
Hermite), by Gauss-Seidel sweeps over the nodes in a fixed ascending
order, each node update using the current neighbour gradients; the
wrapper (line 225) starts the relaxation from the all-zero gradient
array.  For a cubic Hermite on an arc of length d with endpoint values
f1, f2 and endpoint tangential derivatives g1, g2, the integral of the
squared second derivative is 4((g1-s)^2 + (g1-s)(g2-s) + (g2-s)^2)/d
with s = (f2-f1)/d.  A mesh is a node list with an arc list; each arc
carries its length as data. -/

/-- An arc of the mesh: the two endpoint indices and the arc length. -/
structure Arc where
  k : Nat
  j : Nat
  len : ℚ
deriving DecidableEq, Repr

/-- Modelled from the spec: a triangulation as the gradient estimator
sees it — node coordinates and the arcs (with lengths). -/
structure Mesh where
  px : List ℚ
  py : List ℚ
  arcs : List Arc
deriving DecidableEq, Repr

/-- x coordinate of node i. -/
def Mesh.cx (m : Mesh) (i : Nat) : ℚ := m.px.getD i 0

/-- y coordinate of node i. -/
def Mesh.cy (m : Mesh) (i : Nat) : ℚ := m.py.getD i 0

/-- The neighbours of node k: for each arc incident to k, the opposite
endpoint and the arc length. -/
def Mesh.nbrs (m : Mesh) (k : Nat) : List (Nat × ℚ) :=
  m.arcs.filterMap fun a =>
    if a.k = k then some (a.j, a.len)
    else if a.j = k then some (a.k, a.len) else none

/-- The linearised curvature of the Hermite interpolant along one arc:
4((g1-s)^2 + (g1-s)(g2-s) + (g2-s)^2)/d, where g1, g2 are the
tangential components of the endpoint gradients and s is the divided
difference of the values. -/
def arcCurv (m : Mesh) (f : Nat → ℚ) (G : Nat → ℚ × ℚ) (a : Arc) : ℚ :=
  let dx := m.cx a.j - m.cx a.k
  let dy := m.cy a.j - m.cy a.k
  let s := (f a.j - f a.k) / a.len
  let g1 := ((G a.k).1 * dx + (G a.k).2 * dy) / a.len
  let g2 := ((G a.j).1 * dx + (G a.j).2 * dy) / a.len
  4 * ((g1 - s) ^ 2 + (g1 - s) * (g2 - s) + (g2 - s) ^ 2) / a.len

/-- Modelled from the spec: the curvature functional Q(G), the sum of
the arc curvatures over all arcs. -/
def Qfun (m : Mesh) (f : Nat → ℚ) (G : Nat → ℚ × ℚ) : ℚ :=
  (m.arcs.map (arcCurv m f G)).sum

/-- The weight coefficient attached to the arc towards one neighbour
in the local normal equations: 8 divided by the cube of the length. -/
def wM (p : Nat × ℚ) : ℚ := 8 / p.2 ^ 3

/-- The entries of the 2x2 normal matrix of the local minimisation at
node k: the sum over incident arcs of (8/d^3) dp dp^T where dp is the
coordinate offset to the neighbour.  m11 entry. -/
def nodeM11 (m : Mesh) (k : Nat) : ℚ :=
  ((m.nbrs k).map (fun p =>
    wM p * (m.cx p.1 - m.cx k) * (m.cx p.1 - m.cx k))).sum

/-- Off-diagonal entry of the local normal matrix at node k. -/
def nodeM12 (m : Mesh) (k : Nat) : ℚ :=
  ((m.nbrs k).map (fun p =>
    wM p * (m.cx p.1 - m.cx k) * (m.cy p.1 - m.cy k))).sum

/-- m22 entry of the local normal matrix at node k. -/
def nodeM22 (m : Mesh) (k : Nat) : ℚ :=
  ((m.nbrs k).map (fun p =>
    wM p * (m.cy p.1 - m.cy k) * (m.cy p.1 - m.cy k))).sum

/-- The scalar weight of one neighbour in the right-hand side of the
local minimisation at node k: (4/d^3)(3(f j - f k) - Gj.dp), obtained
by setting the partial derivatives of Q with respect to the gradient at
k to zero with the neighbour gradients held fixed. -/
def wV (m : Mesh) (f : Nat → ℚ) (G : Nat → ℚ × ℚ) (k : Nat)
    (p : Nat × ℚ) : ℚ :=
  4 * (3 * (f p.1 - f k) -
    ((G p.1).1 * (m.cx p.1 - m.cx k) + (G p.1).2 * (m.cy p.1 - m.cy k)))
    / p.2 ^ 3

/-- First component of the right-hand side at node k. -/
def nodeV1 (m : Mesh) (f : Nat → ℚ) (G : Nat → ℚ × ℚ) (k : Nat) : ℚ :=
  ((m.nbrs k).map (fun p => wV m f G k p * (m.cx p.1 - m.cx k))).sum

/-- Second component of the right-hand side at node k. -/
def nodeV2 (m : Mesh) (f : Nat → ℚ) (G : Nat → ℚ × ℚ) (k : Nat) : ℚ :=
  ((m.nbrs k).map (fun p => wV m f G k p * (m.cy p.1 - m.cy k))).sum

/-- Determinant of the local normal matrix at node k. -/
def nodeDet (m : Mesh) (k : Nat) : ℚ :=
  nodeM11 m k * nodeM22 m k - nodeM12 m k * nodeM12 m k

/-- Modelled from the spec: the Gauss-Seidel block update at node k —
replace the gradient at k by the minimiser of Q over that gradient pair
with all neighbour gradients fixed, solving the 2x2 normal system by
Cramer (keeping the old value when the system is singular). -/
def updateNode (m : Mesh) (f : Nat → ℚ) (G : Nat → ℚ × ℚ) (k : Nat) :
    ℚ × ℚ :=
  if nodeDet m k = 0 then G k
  else
    ((nodeM22 m k * nodeV1 m f G k - nodeM12 m k * nodeV2 m f G k)
        / nodeDet m k,
     (nodeM11 m k * nodeV2 m f G k - nodeM12 m k * nodeV1 m f G k)
        / nodeDet m k)

/-- Modelled from the spec: one Gauss-Seidel sweep — update the nodes
in ascending index order, each update seeing the values already updated
earlier in the same sweep. -/
def sweep (m : Mesh) (f : Nat → ℚ) (G : Nat → ℚ × ℚ) : Nat → ℚ × ℚ :=
  (List.range m.px.length).foldl
    (fun Gc k => fun i => if i = k then updateNode m f Gc k else Gc i) G

/-- Modelled from the spec: nit relaxation sweeps. -/
def sweeps (m : Mesh) (f : Nat → ℚ) : Nat → (Nat → ℚ × ℚ) → Nat → ℚ × ℚ
  | 0, G => G
  | n + 1, G => sweeps m f n (sweep m f G)

/-- The 3-4-5 right triangle, the smallest valid triangulation with all
arc lengths rational: nodes (0,0), (3,0), (0,4) and the three arcs of
lengths 3, 4, 5. -/
def mesh345 : Mesh :=
  ⟨[0, 3, 0], [0, 0, 4], [⟨0, 1, 3⟩, ⟨0, 2, 4⟩, ⟨1, 2, 5⟩]⟩

/-- The affine field f(x,y) = 2x - 3y + 7 of the spec, sampled at the
nodes of mesh345 (written with the coefficient pair (2, -3) explicit). -/
def affine345 (i : Nat) : ℚ := 2 * mesh345.cx i + (-3) * mesh345.cy i + 7

/-- The all-zero initial gradient array created by the wrapper. -/
def zeroG : Nat → ℚ × ℚ := fun _ => (0, 0)

/-- Modelled from the spec: a gradg behaviour whose relaxation never
meets the tolerance, so every call reports flag 1 (section 4.4 allows
nonconvergence — otherwise its NoConvergence outcome could not arise;
with tol = 0 the Gauss-Seidel change never becomes strictly smaller
than the tolerance). -/
def gradgNeverConverges : Nat → Int := fun _ => 1

/-- The guarantee-convergence call never returns: for every fuel bound
the while loop is still running. -/
def GradientLoopsForever (g : Nat → Int) : Prop :=
  ∀ np fuel, gradient_wrapper np np g true fuel = none

/-- Modelled from the spec: nearest_neighbours with the free names of
line 177 bound to the fields of the triangulation, the binding the
documented contract intends (section 9 treats the documented k-nearest
contract as authoritative and the unbound names as a defect of the
wrapper). -/
def nearest_neighbours_repaired
    (getnp : List Int → List ℚ → List Int × List ℚ)
    (indices : List Int) (distances : List ℚ) (copy : Bool) :
    (List Int × List ℚ) × Except PyExc (List Int × List ℚ) :=
  nn_body true getnp indices distances copy

/-- Every arc curvature is nonnegative when the arc length is
positive. -/
lemma arcCurv_nonneg (m : Mesh) (f : Nat → ℚ) (G : Nat → ℚ × ℚ)
    (a : Arc) (hd : 0 < a.len) : 0 ≤ arcCurv m f G a := by
  unfold arcCurv
  apply div_nonneg _ (le_of_lt hd)
  set p := ((G a.k).1 * (m.cx a.j - m.cx a.k) +
    (G a.k).2 * (m.cy a.j - m.cy a.k)) / a.len - (f a.j - f a.k) / a.len
  set q := ((G a.j).1 * (m.cx a.j - m.cx a.k) +
    (G a.j).2 * (m.cy a.j - m.cy a.k)) / a.len - (f a.j - f a.k) / a.len
  nlinarith [sq_nonneg (p + q), sq_nonneg p, sq_nonneg q]

/-- On an affine field the constant gradient (a, b) zeroes every arc
curvature. -/
lemma arcCurv_affine_eq_zero (m : Mesh) (f : Nat → ℚ) (a b c : ℚ)
    (hf : ∀ i, f i = a * m.cx i + b * m.cy i + c) (ar : Arc) :
    arcCurv m f (fun _ => (a, b)) ar = 0 := by
  unfold arcCurv
  have hdf : f ar.j - f ar.k =
      a * (m.cx ar.j - m.cx ar.k) + b * (m.cy ar.j - m.cy ar.k) := by
    rw [hf, hf]; ring
  rw [hdf]
  ring

/-- Every neighbour-list entry carries the length of one of the mesh
arcs. -/
lemma nbrs_len_mem (m : Mesh) (k : Nat) (p : Nat × ℚ)
    (hp : p ∈ m.nbrs k) : ∃ ar ∈ m.arcs, p.2 = ar.len := by
  unfold Mesh.nbrs at hp
  rcases List.mem_filterMap.mp hp with ⟨a, ha, heq⟩
  refine ⟨a, ha, ?_⟩
  by_cases h1 : a.k = k
  · simp only [h1, if_true] at heq
    cases heq
    rfl
  · by_cases h2 : a.j = k
    · simp only [h1, if_false, h2, if_true] at heq
      cases heq
      rfl
    · simp [h1, h2] at heq

/-- Linearity of a mapped list sum with two coefficients. -/
lemma sum_map_linear {α : Type} (l : List α) (f g : α → ℚ) (a b : ℚ) :
    (l.map (fun x => a * f x + b * g x)).sum =
      a * (l.map f).sum + b * (l.map g).sum := by
  induction l with
  | nil => simp
  | cons x l ih =>
    simp only [List.map_cons, List.sum_cons, ih]
    ring

/-- On an affine field with every neighbour gradient already (a, b),
the first component of the local right-hand side is the first row of
the normal matrix applied to (a, b). -/
lemma nodeV1_affine (m : Mesh) (f : Nat → ℚ) (a b c : ℚ)
    (hf : ∀ i, f i = a * m.cx i + b * m.cy i + c) (k : Nat)
    (hlen : ∀ p ∈ m.nbrs k, (0 : ℚ) < p.2) :
    nodeV1 m f (fun _ => (a, b)) k =
      a * nodeM11 m k + b * nodeM12 m k := by
  unfold nodeV1 nodeM11 nodeM12
  rw [← sum_map_linear]
  apply congrArg
  apply List.map_congr_left
  intro p hp
  have hpos : (0 : ℚ) < p.2 := hlen p hp
  have hdf : f p.1 - f k =
      a * (m.cx p.1 - m.cx k) + b * (m.cy p.1 - m.cy k) := by
    rw [hf, hf]; ring
  unfold wV wM
  rw [hdf]
  field_simp
  ring

/-- On an affine field with every neighbour gradient already (a, b),
the second component of the local right-hand side is the second row of
the normal matrix applied to (a, b). -/
lemma nodeV2_affine (m : Mesh) (f : Nat → ℚ) (a b c : ℚ)
    (hf : ∀ i, f i = a * m.cx i + b * m.cy i + c) (k : Nat)
    (hlen : ∀ p ∈ m.nbrs k, (0 : ℚ) < p.2) :
    nodeV2 m f (fun _ => (a, b)) k =
      a * nodeM12 m k + b * nodeM22 m k := by
  unfold nodeV2 nodeM12 nodeM22
  rw [← sum_map_linear]
  apply congrArg
  apply List.map_congr_left
  intro p hp
  have hpos : (0 : ℚ) < p.2 := hlen p hp
  have hdf : f p.1 - f k =
      a * (m.cx p.1 - m.cx k) + b * (m.cy p.1 - m.cy k) := by
    rw [hf, hf]; ring
  unfold wV wM
  rw [hdf]
  field_simp
  ring

/-- With a nonsingular local system, the Gauss-Seidel update at a node
whose neighbours all carry the affine gradient returns the affine
gradient: (a, b) everywhere is a fixed point of the sweep. -/
lemma updateNode_affine_fixed (m : Mesh) (f : Nat → ℚ) (a b c : ℚ)
    (hf : ∀ i, f i = a * m.cx i + b * m.cy i + c) (k : Nat)
    (hlen : ∀ p ∈ m.nbrs k, (0 : ℚ) < p.2)
    (hdet : nodeDet m k ≠ 0) :
    updateNode m f (fun _ => (a, b)) k = (a, b) := by
  unfold updateNode
  rw [if_neg hdet, nodeV1_affine m f a b c hf k hlen,
    nodeV2_affine m f a b c hf k hlen]
  unfold nodeDet at hdet ⊢
  rw [Prod.mk.injEq]
  refine ⟨?_, ?_⟩
  all_goals
    rw [div_eq_iff hdet]
    ring

/-- The curvature functional is nonnegative whenever the arc lengths
are positive. -/
lemma Qfun_nonneg (m : Mesh) (f : Nat → ℚ) (G : Nat → ℚ × ℚ)
    (hd : ∀ ar ∈ m.arcs, 0 < ar.len) : 0 ≤ Qfun m f G := by
  apply List.sum_nonneg
  intro x hx
  rcases List.mem_map.mp hx with ⟨ar, har, hx⟩
  rw [← hx]
  exact arcCurv_nonneg m f G ar (hd ar har)

/-- On an affine field the constant gradient (a, b) gives curvature
functional zero. -/
lemma Qfun_affine_zero (m : Mesh) (f : Nat → ℚ) (a b c : ℚ)
    (hf : ∀ i, f i = a * m.cx i + b * m.cy i + c) :
    Qfun m f (fun _ => (a, b)) = 0 := by
  apply List.sum_eq_zero
  intro x hx
  rcases List.mem_map.mp hx with ⟨ar, _, hx⟩
  rw [← hx]
  exact arcCurv_affine_eq_zero m f a b c hf ar

/-- If every gradg call reports flag 1, the while loop never exits. -/
lemma gradgLoopFuel_none_of_all_one (g : Nat → Int)
    (h : ∀ k, g k = 1) : ∀ fuel k, gradgLoopFuel g k fuel = none := by
  intro fuel
  induction fuel with
  | zero => intro k; rfl
  | succ n ih =>
    intro k
    simp only [gradgLoopFuel, h k, if_true]
    exact ih (k + 1)

/-- If the call starting at index k0 plus offset n reports a flag other
than 1, the while loop exits within n + 1 more calls. -/
lemma gradgLoopFuel_some_of_ne_one (g : Nat → Int) :
    ∀ (n k0 : Nat), g (k0 + n) ≠ 1 →
    ∃ r, gradgLoopFuel g k0 (n + 1) = some r := by
  intro n
  induction n with
  | zero =>
    intro k0 h
    rw [Nat.add_zero] at h
    exact ⟨g k0, by simp [gradgLoopFuel, h]⟩
  | succ n ih =>
    intro k0 h
    by_cases h0 : g k0 = 1
    · have h1 : g (k0 + 1 + n) ≠ 1 := by
        rw [Nat.add_right_comm]
        exact h
      rcases ih (k0 + 1) h1 with ⟨r, hr⟩
      exact ⟨r, by simp only [gradgLoopFuel, h0, if_true]; exact hr⟩
    · exact ⟨g k0, by simp [gradgLoopFuel, h0]⟩

/-- C1: when smsurf reports flag 1 (the residual constraint is not
active, no other error) the wrapper does not return the smoothed values
and second derivatives with a warning-class signal; line 400 executes
`raise RuntimeWarning(...)`, which raises the warning as an exception,
so every size-valid smoothing call whose solver reports flag 1 fails by
exception and the computed f_smooth and d2f are discarded. -/
theorem smoothing_constraint_inactive_raises (np : Nat)
    (out : List ℚ × List ℚ × List ℚ) :
    smoothing_wrapper np np np (1, out) =
      .error (.runtimeWarning
        "No errors were encountered but the constraint is not active") := by
  simp [smoothing_wrapper]

/-- C3: every call of nearest_neighbours raises NameError before the
k-nearest query can run: line 177 references the bare names x, y, lst,
lptr, lend, which resolve neither among the function locals nor at
module scope, so the ordered sequence of closest nodes is never
returned. -/
theorem nearest_neighbours_raises_name_error
    (getnp : List Int → List ℚ → List Int × List ℚ)
    (indices : List Int) (distances : List ℚ) (copy : Bool) :
    (nearest_neighbours getnp indices distances copy).2 =
      .error (.nameError "x") := by
  have hres : nnResolves "x" = false := by decide
  unfold nearest_neighbours
  rw [hres]
  unfold nn_body
  simp

/-- C10 counterexample: a concrete call with copy=True does not return
the original input arrays (as the claim states) — it raises NameError,
so no value is returned at all. -/
theorem nn_copy_true_concrete_raises :
    nearest_neighbours (fun p q => (p, q)) [0, 1] [0, 1] true =
      (([0, 1], [0, 1]), .error (.nameError "x")) := by
  have hres : nnResolves "x" = false := by decide
  unfold nearest_neighbours
  rw [hres]
  unfold nn_body
  simp

/-- C10 amended: in the repaired binding (the free names resolved to
the triangulation fields, as the documented contract intends), a call
with copy=True performs the index conversion and the getnp update on
the copies and then returns the original indices and distances arrays
unchanged — the computed update is discarded, whatever getnp does. -/
theorem nn_repaired_copy_true_returns_inputs
    (getnp : List Int → List ℚ → List Int × List ℚ)
    (indices : List Int) (distances : List ℚ) :
    nearest_neighbours_repaired getnp indices distances true =
      ((indices, distances), .ok (indices, distances)) := by
  unfold nearest_neighbours_repaired nn_body
  simp

/-- C9: every derived query returns the triangulation state it was
given: neighbour_simplices, neighbour_and_arc_simplices,
nearest_neighbour, nearest_neighbours, gradient, gradient_local,
interpolate_linear, interpolate_cubic and smoothing all leave x, y,
npoints, lst, lptr, lend and simplices unchanged, for every argument
and every behaviour of the compiled routines. -/
theorem derived_queries_leave_state (t : Tri) :
    (∀ trlist, (Tri.neighbourSimplicesM trlist t).1 = t) ∧
    (∀ trlist, (Tri.neighbourAndArcSimplicesM trlist t).1 = t) ∧
    (∀ nearnd xi yi, (Tri.nearestNeighbourM nearnd t xi yi).1 = t) ∧
    (∀ getnp indices distances copy,
      (Tri.nearestNeighboursM getnp t indices distances copy).1 = t) ∧
    (∀ g fsize guarantee fuel,
      (Tri.gradientM g t fsize guarantee fuel).1 = t) ∧
    (∀ gradl fsize index, (Tri.gradientLocalM gradl t fsize index).1 = t) ∧
    (∀ intrc0 input zsize,
      (Tri.interpolateLinearM intrc0 t input zsize).1 = t) ∧
    (∀ intrc1 input zsize derivatives,
      (Tri.interpolateCubicM intrc1 t input zsize derivatives).1 = t) ∧
    (∀ fsize wsize smsurf, (Tri.smoothingM t fsize wsize smsurf).1 = t) :=
  ⟨fun _ => rfl, fun _ => rfl, fun _ _ _ => rfl, fun _ _ _ _ => rfl,
   fun _ _ _ _ => rfl, fun _ _ _ => rfl, fun _ _ _ => rfl,
   fun _ _ _ _ => rfl, fun _ _ _ => rfl⟩

/-- C2 amended: the guarantee_convergence call terminates exactly when
some gradg call reports a flag other than 1; it then returns the
gradient arrays (flag 0 or positive) or raises ValueError (negative
flag) — there is no NoConvergence failure, and when gradg reports
flag 1 on every call the while loop of lines 229-234 runs forever. -/
theorem gradient_guarantee_terminates_iff (np : Nat) (g : Nat → Int) :
    (∃ fuel r, gradient_wrapper np np g true fuel = some r) ↔
      ∃ k, g k ≠ 1 := by
  constructor
  · rintro ⟨fuel, r, hr⟩
    by_contra hall
    push_neg at hall
    have hnone := gradgLoopFuel_none_of_all_one g hall fuel 0
    simp [gradient_wrapper, hnone] at hr
  · rintro ⟨k, hk⟩
    have h0 : g (0 + k) ≠ 1 := by rwa [Nat.zero_add]
    rcases gradgLoopFuel_some_of_ne_one g k 0 h0 with ⟨r, hr⟩
    refine ⟨k + 1,
      if r < 0 then .error (.valueError "ierr in gradg") else .ok (), ?_⟩
    simp [gradient_wrapper, hr]

/-- C2 counterexample: with a solver whose relaxation never meets the
tolerance (every call reports flag 1, e.g. tol = 0), the
guarantee_convergence call neither returns nor raises NoConvergence —
the loop runs forever. -/
theorem gradient_guarantee_can_loop_forever :
    GradientLoopsForever gradgNeverConverges := by
  intro np fuel
  have hnone :=
    gradgLoopFuel_none_of_all_one gradgNeverConverges (fun _ => rfl) fuel 0
  simp [gradient_wrapper, hnone]

/-- C6: gradient rejects a field whose size differs from the point
count, smoothing rejects mismatched f and w sizes, and both
interpolation entry points reject a zdata size differing from the point
count — in every case with a ValueError and independently of the
compiled solver, the iteration budget and the query points, so the
check happens before any iteration or numeric work. -/
theorem mismatched_sizes_rejected_before_work (np fsize wsize zsize : Nat) :
    (fsize ≠ np → ∀ (g : Nat → Int) (guarantee : Bool) (fuel : Nat),
      gradient_wrapper np fsize g guarantee fuel =
        some (.error (.valueError "f should be the same size as mesh"))) ∧
    (fsize ≠ np ∨ fsize ≠ wsize →
      ∀ smsurf, smoothing_wrapper np fsize wsize smsurf =
        .error (.valueError "f and w should be the same size as mesh")) ∧
    (zsize ≠ np → ∀ (intrc0 : ℚ → ℚ → Int → ℚ × Int) (input : XYIn),
      interpolate_linear np intrc0 input zsize =
        .error (.valueError "zdata should be same size as mesh")) ∧
    (zsize ≠ np → ∀ (intrc1 : ℚ → ℚ → Int → ℚ × ℚ × ℚ × Int)
      (input : XYIn) (derivatives : Bool),
      interpolate_cubic np intrc1 input zsize derivatives =
        .error (.valueError "zdata should be same size as mesh")) := by
  refine ⟨?_, ?_, ?_, ?_⟩
  · intro h g guarantee fuel
    simp [gradient_wrapper, h]
  · intro h smsurf
    simp only [smoothing_wrapper, if_pos h]
  · intro h intrc0 input
    simp only [interpolate_linear, if_pos h]
  · intro h intrc1 input derivatives
    simp only [interpolate_cubic, if_pos h]

/-- C6 witness: at point count 1 and array sizes 2 the four entry
points reject the input regardless of the solver functions supplied. -/
theorem mismatched_sizes_rejected_before_work_witness :
    (2 ≠ 1 ∧ (2 ≠ 1 ∨ 2 ≠ 2)) ∧
    gradient_wrapper 1 2 (fun _ => 1) true 0 =
      some (.error (.valueError "f should be the same size as mesh")) ∧
    smoothing_wrapper 1 2 2 (0, ([], [], [])) =
      .error (.valueError "f and w should be the same size as mesh") ∧
    interpolate_linear 1 (fun _ _ _ => (0, 1)) (.one 0 0) 2 =
      .error (.valueError "zdata should be same size as mesh") ∧
    interpolate_cubic 1 (fun _ _ _ => (0, 0, 0, 1)) (.one 0 0) 2 false =
      .error (.valueError "zdata should be same size as mesh") :=
  ⟨⟨by decide, Or.inl (by decide)⟩,
   (mismatched_sizes_rejected_before_work 1 2 2 2).1 (by decide)
     (fun _ => 1) true 0,
   (mismatched_sizes_rejected_before_work 1 2 2 2).2.1 (Or.inl (by decide))
     (0, ([], [], [])),
   (mismatched_sizes_rejected_before_work 1 2 2 2).2.2.1 (by decide)
     (fun _ _ _ => (0, 1)) (.one 0 0),
   (mismatched_sizes_rejected_before_work 1 2 2 2).2.2.2 (by decide)
     (fun _ _ _ => (0, 0, 0, 1)) (.one 0 0) false⟩

/-- C5: construction with a non-1D coordinate array or mismatched
lengths fails with the shape ValueError before any triangulation work
(the result does not depend on the trmesh and trlist2 behaviour), and a
Triangulation value is returned only when the shapes, the sizes and
both compiled calls are good — no partially-built object reaches the
caller on any construction-time failure. -/
theorem construction_shape_errors (x y : PyArray) :
    (x.shape.length ≠ 1 ∨ y.shape.length ≠ 1 →
      ∀ tm tl2, Triangulation.init tm tl2 x y =
        .error (.valueError "x and y must be 1D")) ∧
    (x.shape.length = 1 → y.shape.length = 1 → x.size ≠ y.size →
      ∀ tm tl2, Triangulation.init tm tl2 x y =
        .error (.valueError "x and y must have same length")) ∧
    (∀ tm tl2 t, Triangulation.init tm tl2 x y = .ok t →
      x.shape.length = 1 ∧ y.shape.length = 1 ∧ x.size = y.size ∧
      (tm x y).2.2.2 = 0 ∧
      (tl2 (tm x y).1 (tm x y).2.1 (tm x y).2.2.1).2.2 = 0 ∧
      t = ⟨x, y, x.size, (tm x y).1, (tm x y).2.1, (tm x y).2.2.1,
        toSimplices (tl2 (tm x y).1 (tm x y).2.1 (tm x y).2.2.1).2.1
          (tl2 (tm x y).1 (tm x y).2.1 (tm x y).2.2.1).1⟩) := by
  refine ⟨?_, ?_, ?_⟩
  · intro h tm tl2
    simp only [Triangulation.init, if_pos h]
  · intro hx hy h tm tl2
    have hsh : ¬(x.shape.length ≠ 1 ∨ y.shape.length ≠ 1) := by
      push_neg
      exact ⟨hx, hy⟩
    simp only [Triangulation.init, if_neg hsh, if_pos h]
  · intro tm tl2 t h
    by_cases hsh : x.shape.length ≠ 1 ∨ y.shape.length ≠ 1
    · simp [Triangulation.init, if_pos hsh] at h
    · by_cases hsz : x.size ≠ y.size
      · simp [Triangulation.init, if_neg hsh, if_pos hsz] at h
      · push_neg at hsh hsz
        by_cases hie : (tm x y).2.2.2 ≠ 0
        · simp [Triangulation.init, if_neg, hsh, hsz, hie] at h
        · by_cases hie2 :
            (tl2 (tm x y).1 (tm x y).2.1 (tm x y).2.2.1).2.2 ≠ 0
          · simp [Triangulation.init, hsh, hsz, hie, hie2] at h
          · push_neg at hie hie2
            refine ⟨hsh.1, hsh.2, hsz, hie, hie2, ?_⟩
            simp [Triangulation.init, hsh, hsz, hie, hie2] at h
            rw [hsz]
            exact h.symm

/-- Entrywise description of subtracting one from every element of
every row: the (i, j) entry of the converted table is the (i, j) entry
of the raw table minus one, out-of-range entries included. -/
lemma map_sub_one_entry (L : List (List Int)) (i j : Nat) :
    ((L.map fun r => r.map fun e => e - 1)[i]?.bind fun r => r[j]?) =
      ((L[i]?.bind fun r => r[j]?).map fun e => e - 1) := by
  rw [List.getElem?_map]
  cases h : L[i]? with
  | none => simp
  | some row => simp [List.getElem?_map]

/-- C5 witness: a concrete shape-mismatched pair is rejected, and a
concrete fully-valid construction yields the completely-built object. -/
theorem construction_shape_errors_witness :
    ((⟨[2, 2], []⟩ : PyArray).shape.length ≠ 1 ∨
      (⟨[4], []⟩ : PyArray).shape.length ≠ 1) ∧
    Triangulation.init (fun _ _ => ([], [], [], 0))
      (fun _ _ _ => (0, [], 0)) ⟨[2, 2], []⟩ ⟨[4], []⟩ =
      .error (.valueError "x and y must be 1D") :=
  ⟨Or.inl (by decide),
   (construction_shape_errors ⟨[2, 2], []⟩ ⟨[4], []⟩).1
     (Or.inl (by decide)) (fun _ _ => ([], [], [], 0))
     (fun _ _ _ => (0, [], 0))⟩

/-- C4: every public index is the library's 1-based index minus one:
each entry of the stored simplices table equals the corresponding entry
of the trlist2 triangle table minus one; each entry returned by
neighbour_simplices equals the corresponding neighbour column of the
trlist table minus one, so the library's 0 sentinel for a hull edge
comes out as exactly -1; and the node index returned by
nearest_neighbour is the nearnd index minus one with the squared
distance passed through. -/
theorem zero_based_outputs
    (tm : PyArray → PyArray → List Int × List Int × List Int × Int)
    (tl2 : List Int → List Int → List Int → Nat × List (List Int) × Int)
    (x y : PyArray)
    (trlist : List Int → List Int → List Int → Nat × List (List Int) × List Int × Int)
    (t : Tri) (nearnd : ℚ → ℚ → Nat → Int × ℚ) (xi yi : ℚ) :
    (x.shape.length = 1 → y.shape.length = 1 → x.size = y.size →
      (tm x y).2.2.2 = 0 →
      (tl2 (tm x y).1 (tm x y).2.1 (tm x y).2.2.1).2.2 = 0 →
      ∃ t0, Triangulation.init tm tl2 x y = .ok t0 ∧
        ∀ i j : Nat,
          (t0.simplices[i]?.bind fun r => r[j]?) =
            ((((tl2 (tm x y).1 (tm x y).2.1 (tm x y).2.2.1).2.1.take
                (tl2 (tm x y).1 (tm x y).2.1 (tm x y).2.2.1).1)[i]?.bind
              fun r => r[j]?).map fun e => e - 1)) ∧
    ((trlist t.lst t.lptr t.lend).2.2.2 = 0 →
      ∃ rows, neighbour_simplices trlist t = .ok rows ∧
        (∀ i j : Nat,
          (rows[i]?.bind fun r => r[j]?) =
            (((((trlist t.lst t.lptr t.lend).2.1.take
                  (trlist t.lst t.lptr t.lend).1).map
                (fun r => r.drop 3))[i]?.bind fun r => r[j]?).map
              fun e => e - 1)) ∧
        (∀ i j : Nat,
          (((((trlist t.lst t.lptr t.lend).2.1.take
                (trlist t.lst t.lptr t.lend).1).map
              (fun r => r.drop 3))[i]?.bind fun r => r[j]?) = some 0 →
            (rows[i]?.bind fun r => r[j]?) = some (-1)))) ∧
    (nearest_neighbour nearnd t xi yi =
      ((nearnd xi yi (argmin (t.x.data.map fun v => (v - xi) ^ 2) + 1)).1 - 1,
       (nearnd xi yi (argmin (t.x.data.map fun v => (v - xi) ^ 2) + 1)).2)) := by
  refine ⟨?_, ?_, rfl⟩
  · intro hx hy hsz hie hie2
    have hsh : ¬(x.shape.length ≠ 1 ∨ y.shape.length ≠ 1) := by
      push_neg
      exact ⟨hx, hy⟩
    have hsz2 : ¬x.size ≠ y.size := by
      push_neg
      exact hsz
    have hie1 : ¬(tm x y).2.2.2 ≠ 0 := by
      push_neg
      exact hie
    have hie3 :
        ¬(tl2 (tm x y).1 (tm x y).2.1 (tm x y).2.2.1).2.2 ≠ 0 := by
      push_neg
      exact hie2
    refine ⟨⟨x, y, x.size, (tm x y).1, (tm x y).2.1, (tm x y).2.2.1,
      toSimplices (tl2 (tm x y).1 (tm x y).2.1 (tm x y).2.2.1).2.1
        (tl2 (tm x y).1 (tm x y).2.1 (tm x y).2.2.1).1⟩, ?_, ?_⟩
    · simp only [Triangulation.init, if_neg hsh, if_neg hsz2,
        if_neg hie1, if_neg hie3]
    · intro i j
      simp only [toSimplices]
      exact map_sub_one_entry _ i j
  · intro hie
    have hie1 : ¬(trlist t.lst t.lptr t.lend).2.2.2 ≠ 0 := by
      push_neg
      exact hie
    refine ⟨(((trlist t.lst t.lptr t.lend).2.1.take
        (trlist t.lst t.lptr t.lend).1).map (fun r => r.drop 3)).map
        (fun r => r.map fun e => e - 1), ?_, ?_, ?_⟩
    · simp only [neighbour_simplices, if_neg hie1]
    · intro i j
      exact map_sub_one_entry _ i j
    · intro i j h0
      rw [map_sub_one_entry _ i j, h0]
      rfl

/-- C4 witness: a concrete construction, neighbour query and nearest
query exhibit the minus-one conversions, including the 0 to -1 sentinel
conversion on the hull columns. -/
theorem zero_based_outputs_witness :
    ((⟨[3], [0, 1, 2]⟩ : PyArray).shape.length = 1 ∧
      (⟨[3], [0, 2, 1]⟩ : PyArray).shape.length = 1 ∧
      (⟨[3], [0, 1, 2]⟩ : PyArray).size = (⟨[3], [0, 2, 1]⟩ : PyArray).size ∧
      ((fun (_ _ : PyArray) =>
        (([1], [2], [3], 0) : List Int × List Int × List Int × Int))
          ⟨[3], [0, 1, 2]⟩ ⟨[3], [0, 2, 1]⟩).2.2.2 = 0) ∧
    (∃ t0, Triangulation.init
        (fun _ _ => (([1], [2], [3], 0) : List Int × List Int × List Int × Int))
        (fun _ _ _ => ((1, [[1, 2, 3]], 0) : Nat × List (List Int) × Int))
        ⟨[3], [0, 1, 2]⟩ ⟨[3], [0, 2, 1]⟩ = .ok t0 ∧
      ∀ i j : Nat,
        (t0.simplices[i]?.bind fun r => r[j]?) =
          ((([[1, 2, 3]].take 1)[i]?.bind fun r => r[j]?).map
            fun e => e - 1)) ∧
    (∃ rows, neighbour_simplices
        (fun _ _ _ =>
          ((1, [[1, 2, 3, 0, 1, 1]], [], 0) :
            Nat × List (List Int) × List Int × Int))
        ⟨⟨[3], [0, 1, 2]⟩, ⟨[3], [0, 2, 1]⟩, 3, [1], [2], [3], [[0, 1, 2]]⟩ =
          .ok rows ∧
      (rows[0]?.bind fun r => r[0]?) = some (-1)) := by
  have h := zero_based_outputs
    (fun _ _ => (([1], [2], [3], 0) : List Int × List Int × List Int × Int))
    (fun _ _ _ => ((1, [[1, 2, 3]], 0) : Nat × List (List Int) × Int))
    ⟨[3], [0, 1, 2]⟩ ⟨[3], [0, 2, 1]⟩
    (fun _ _ _ =>
      ((1, [[1, 2, 3, 0, 1, 1]], [], 0) :
        Nat × List (List Int) × List Int × Int))
    ⟨⟨[3], [0, 1, 2]⟩, ⟨[3], [0, 2, 1]⟩, 3, [1], [2], [3], [[0, 1, 2]]⟩
    (fun _ _ _ => ((5, 2) : Int × ℚ)) 0 0
  refine ⟨⟨rfl, rfl, rfl, rfl⟩, ?_, ?_⟩
  · exact h.1 rfl rfl rfl rfl rfl
  · rcases h.2.1 rfl with ⟨rows, hrows, _, hsent⟩
    exact ⟨rows, hrows, hsent 0 0 rfl⟩

/-- C7: for array inputs of equal length greater than one, the i-th
element of the batched interpolate_linear result equals the result of
the single-point call at the i-th query pair with the same zdata, and
likewise for interpolate_cubic with and without the derivatives flag:
every element is an independent intrc0/intrc1 call at start index 1,
with no dependence on the other query points. -/
theorem batch_interpolation_matches_single
    (np : Nat) (intrc0 : ℚ → ℚ → Int → ℚ × Int)
    (intrc1 : ℚ → ℚ → Int → ℚ × ℚ × ℚ × Int)
    (xs ys : List ℚ) (i : Nat) (v w : ℚ)
    (hgt : 1 < xs.length) (hlen : xs.length = ys.length)
    (hv : xs[i]? = some v) (hw : ys[i]? = some w) :
    (∃ zi, interpolate_linear np intrc0 (.many xs ys) np =
        .ok (.arrayOut zi) ∧
      zi[i]? = some (intrc0 v w 1).1 ∧
      interpolate_linear np intrc0 (.one v w) np =
        .ok (.scalarOut (intrc0 v w 1).1)) ∧
    (∃ zs dxs dys, interpolate_cubic np intrc1 (.many xs ys) np true =
        .ok (.derivA zs dxs dys) ∧
      zs[i]? = some (intrc1 v w 1).1 ∧
      dxs[i]? = some (intrc1 v w 1).2.1 ∧
      dys[i]? = some (intrc1 v w 1).2.2.1 ∧
      interpolate_cubic np intrc1 (.one v w) np true =
        .ok (.derivS (intrc1 v w 1).1 (intrc1 v w 1).2.1
          (intrc1 v w 1).2.2.1)) ∧
    (∃ zs, interpolate_cubic np intrc1 (.many xs ys) np false =
        .ok (.plainA zs) ∧
      zs[i]? = some (intrc1 v w 1).1 ∧
      interpolate_cubic np intrc1 (.one v w) np false =
        .ok (.plainS (intrc1 v w 1).1)) := by
  have hzip : (xs.zip ys)[i]? = some (v, w) :=
    List.getElem?_zip_eq_some.mpr ⟨hv, hw⟩
  have hne : ¬xs.length ≠ ys.length := by
    push_neg
    exact hlen
  refine ⟨?_, ?_, ?_⟩
  · refine ⟨(xs.zip ys).map (fun p => (intrc0 p.1 p.2 1).1), ?_, ?_, ?_⟩
    · simp [interpolate_linear, hgt, hne]
    · rw [List.getElem?_map, hzip]
      rfl
    · simp [interpolate_linear]
  · refine ⟨((xs.zip ys).map (fun p =>
        let r := intrc1 p.1 p.2 1
        (r.1, r.2.1, r.2.2.1))).map (fun q => q.1),
      ((xs.zip ys).map (fun p =>
        let r := intrc1 p.1 p.2 1
        (r.1, r.2.1, r.2.2.1))).map (fun q => q.2.1),
      ((xs.zip ys).map (fun p =>
        let r := intrc1 p.1 p.2 1
        (r.1, r.2.1, r.2.2.1))).map (fun q => q.2.2), ?_, ?_, ?_, ?_, ?_⟩
    · simp [interpolate_cubic, hgt, hne]
    · rw [List.getElem?_map, List.getElem?_map, hzip]
      rfl
    · rw [List.getElem?_map, List.getElem?_map, hzip]
      rfl
    · rw [List.getElem?_map, List.getElem?_map, hzip]
      rfl
    · simp [interpolate_cubic]
  · refine ⟨((xs.zip ys).map (fun p =>
        let r := intrc1 p.1 p.2 1
        (r.1, r.2.1, r.2.2.1))).map (fun q => q.1), ?_, ?_, ?_⟩
    · simp [interpolate_cubic, hgt, hne]
    · rw [List.getElem?_map, List.getElem?_map, hzip]
      rfl
    · simp [interpolate_cubic]

/-- C7 witness: a two-point batch over a concrete interpolant agrees
elementwise with the single-point calls. -/
theorem batch_interpolation_matches_single_witness :
    (1 < ([0, 1] : List ℚ).length ∧
      ([0, 1] : List ℚ).length = ([5, 6] : List ℚ).length ∧
      ([0, 1] : List ℚ)[0]? = some 0 ∧ ([5, 6] : List ℚ)[0]? = some 5) ∧
    (∃ zi, interpolate_linear 3 (fun a b _ => (a + b, 1))
        (.many [0, 1] [5, 6]) 3 = .ok (.arrayOut zi) ∧
      zi[0]? = some ((fun (a b : ℚ) (_ : Int) => (a + b, (1 : Int))) 0 5 1).1 ∧
      interpolate_linear 3 (fun a b _ => (a + b, 1)) (.one 0 5) 3 =
        .ok (.scalarOut ((fun (a b : ℚ) (_ : Int) => (a + b, (1 : Int))) 0 5 1).1)) := by
  have h := batch_interpolation_matches_single 3
    (fun a b _ => (a + b, 1)) (fun a b _ => (a + b, a, b, 1))
    [0, 1] [5, 6] 0 0 5 (by decide) rfl rfl rfl
  exact ⟨⟨by decide, rfl, rfl, rfl⟩, h.1⟩

/-- C8 counterexample: on the 3-4-5 right triangle with the affine
field f(x,y) = 2x - 3y + 7, one relaxation sweep from the zero initial
gradients (nit = 1, exactly what the wrapper passes) leaves node 0 with
gradient (3, -9/2), not the exact (2, -3): finitely many sweeps of the
spec's Gauss-Seidel relaxation do not reproduce the affine gradient. -/
theorem gradg_one_sweep_not_exact :
    sweeps mesh345 affine345 1 zeroG 0 = (3, -9/2) ∧
    sweeps mesh345 affine345 1 zeroG 0 ≠ (2, -3) := by
  have h : sweeps mesh345 affine345 1 zeroG 0 = (3, -9/2) := by
    norm_num [sweeps, sweep, updateNode, nodeDet, nodeM11, nodeM12,
      nodeM22, nodeV1, nodeV2, wM, wV, Mesh.nbrs, Mesh.cx, Mesh.cy,
      affine345, mesh345, zeroG, List.range_succ, List.filterMap_cons,
      List.filterMap_nil]
  refine ⟨h, ?_⟩
  rw [h, Ne, Prod.mk.injEq]
  norm_num

/-- C8 amended: on every mesh with positive arc lengths and every
affine field f = a x + b y + c, the constant gradient (a, b) attains
the global minimum of the curvature functional (Q of it is zero and Q
is nonnegative everywhere), and it is a fixed point of the per-node
Gauss-Seidel update wherever the local normal system is nonsingular:
the relaxation's target is the exact affine gradient, reached in the
limit rather than after any fixed number of sweeps. -/
theorem affine_gradient_minimises_curvature
    (m : Mesh) (a b c : ℚ) (f : Nat → ℚ)
    (hd : ∀ ar ∈ m.arcs, 0 < ar.len)
    (hf : ∀ i, f i = a * m.cx i + b * m.cy i + c) :
    Qfun m f (fun _ => (a, b)) = 0 ∧
    (∀ G, 0 ≤ Qfun m f G) ∧
    (∀ k, nodeDet m k ≠ 0 →
      updateNode m f (fun _ => (a, b)) k = (a, b)) := by
  refine ⟨Qfun_affine_zero m f a b c hf,
    fun G => Qfun_nonneg m f G hd, fun k hdet => ?_⟩
  apply updateNode_affine_fixed m f a b c hf k ?_ hdet
  intro p hp
  rcases nbrs_len_mem m k p hp with ⟨ar, har, hlen⟩
  rw [hlen]
  exact hd ar har

/-- C8 witness: the amended statement instantiated on the 3-4-5
triangle and f(x,y) = 2x - 3y + 7. -/
theorem affine_gradient_minimises_curvature_witness :
    (∀ ar ∈ mesh345.arcs, 0 < ar.len) ∧
    (Qfun mesh345 affine345 (fun _ => ((2 : ℚ), (-3 : ℚ))) = 0 ∧
     (∀ G, 0 ≤ Qfun mesh345 affine345 G) ∧
     (∀ k, nodeDet mesh345 k ≠ 0 →
       updateNode mesh345 affine345 (fun _ => ((2 : ℚ), (-3 : ℚ))) k =
         (2, -3))) :=
  ⟨by decide, affine_gradient_minimises_curvature mesh345 2 (-3) 7
    affine345 (by decide) (fun i => rfl)⟩

end Stripy
